import Mathlib

/-!
Shallow embedding of `html/generate_report.py`, the benchmark-report generator:
CSV row parsing (`read_csvs` and its helper `parse_float`), aggregation by
configuration key (`aggregate`), the summary sort order, and the `main`
entry point's exit behavior.  Python floats are modelled exactly by `Rat`;
Python `round` is round-half-even; file contents are modelled as the list of
rows (each a list of cell strings) the `csv` module would yield, and the
two-level directory walk as the flat list of discovered files' row lists.
Python's `str.upper`, `str.lower` and the whitespace strip of `int`/`float`
are modelled as character-wise maps over the string's character list.
-/

namespace GenerateReport

/-- Numeric value of a list of decimal digit characters, most significant first. -/
def digitsVal (cs : List Char) : Nat :=
  cs.foldl (fun a c => a * 10 + (c.toNat - 48)) 0

/-- Characters of a string with surrounding whitespace removed, as Python
`int`/`float` strip it before parsing. -/
def stripChars (s : String) : List Char :=
  ((s.data.dropWhile Char.isWhitespace).reverse.dropWhile Char.isWhitespace).reverse

/-- Python `str.lower` (character-wise, ASCII case map). -/
def pyLower (s : String) : String := String.mk (s.data.map Char.toLower)

/-- Python `str.upper` (character-wise, ASCII case map). -/
def pyUpper (s : String) : String := String.mk (s.data.map Char.toUpper)

/-- Python `int(s)` on strings: optional surrounding whitespace, optional sign,
then one or more decimal digits. -/
def pyInt? (s : String) : Option Int :=
  match stripChars s with
  | '+' :: rest => if rest ≠ [] ∧ rest.all Char.isDigit then some (digitsVal rest) else none
  | '-' :: rest => if rest ≠ [] ∧ rest.all Char.isDigit then some (-(digitsVal rest : Int)) else none
  | cs => if cs ≠ [] ∧ cs.all Char.isDigit then some (digitsVal cs) else none

/-- Python `float(s)` on finite decimal literals: optional surrounding whitespace,
optional sign, digits around an optional decimal point (at least one digit),
optional decimal exponent.  The non-finite spellings (`inf`, `nan`) and digit
underscores are outside this model. -/
def pyFloat? (s : String) : Option Rat :=
  let cs := stripChars s
  let body : Rat × List Char :=
    match cs with
    | '+' :: rest => (1, rest)
    | '-' :: rest => (-1, rest)
    | rest => (1, rest)
  let mant := body.2.takeWhile (fun c => c != 'e' && c != 'E')
  let expVal : Option Int :=
    match body.2.drop mant.length with
    | [] => some 0
    | _ :: rest =>
      match rest with
      | '+' :: ds => if ds ≠ [] ∧ ds.all Char.isDigit then some (digitsVal ds) else none
      | '-' :: ds => if ds ≠ [] ∧ ds.all Char.isDigit then some (-(digitsVal ds : Int)) else none
      | ds => if ds ≠ [] ∧ ds.all Char.isDigit then some (digitsVal ds) else none
  let ip := mant.takeWhile (fun c => c != '.')
  let fp : Option (List Char) :=
    match mant.drop ip.length with
    | [] => some []
    | _ :: rest => if rest.all Char.isDigit then some rest else none
  match fp, expVal with
  | some f, some e =>
    if ip.all Char.isDigit ∧ (ip ≠ [] ∨ f ≠ []) then
      some (body.1 * ((digitsVal ip : Rat) + (digitsVal f : Rat) / (10 : Rat) ^ f.length) *
        (10 : Rat) ^ e)
    else none
  | _, _ => none

/-- The `Record` dataclass of `generate_report.py`. -/
structure Record where
  timestamp : String
  system : String
  duration : String
  cores : String
  config : String
  detect : String
  classify : String
  batch : String
  throughput : Option Rat
  per_stream : Option Rat
  theoretical : String
  streams : String
  pipeline : String
  device_config : Option String
  avg_power : Option Rat
  efficiency : Option Rat
deriving DecidableEq, Repr, Inhabited

/-- A parse attempt of one file either skips the file or yields a record. -/
inductive FileSkip where
  | tooFewRows
  | badNumeric
deriving DecidableEq, Repr

/-- Lookup in the Python dict built by `dict(zip(header, row))`: on duplicate
column names the later pair wins, as in repeated dict assignment. -/
def dget (d : List (String × String)) (k : String) : Option String :=
  d.foldl (fun acc kv => if kv.1 = k then some kv.2 else acc) none

/-- The `parse_float` helper of `generate_report.py`: `None` for a missing,
empty or (case-insensitively) `NA` value, otherwise Python `float`, whose
`ValueError` on other non-numeric content is the file-level failure
`FileSkip.badNumeric`. -/
def parse_float (value : Option String) : Except FileSkip (Option Rat) :=
  match value with
  | none => Except.ok none
  | some v =>
    if v = "" ∨ pyUpper v = "NA" then Except.ok none
    else
      match pyFloat? v with
      | some q => Except.ok (some q)
      | none => Except.error FileSkip.badNumeric

/-- The pipeline-string synthesis of `read_csvs` (lines 71-76). -/
def pipelineOf (d : List (String × String)) : String :=
  if (dget d "Pipeline1").isSome ∧ (dget d "Pipeline2").isSome then
    "Pipeline1: " ++ (dget d "Pipeline1").getD "" ++ "... | Pipeline2: " ++
      (dget d "Pipeline2").getD "" ++ "..."
  else if (dget d "Pipeline1").isSome then (dget d "Pipeline1").getD ""
  else (dget d "Pipeline").getD ""

/-- Parsing of one result file's rows into a `Record` (the body of the per-file
loop in `read_csvs`): fewer than two rows skips the file, otherwise the header
row is zipped with the first data row and the `Record` fields are filled,
numeric fields through `parse_float`. -/
def read_file (rows : List (List String)) : Except FileSkip Record :=
  match rows with
  | r0 :: r1 :: _ => do
    let d := r0.zip r1
    let throughput ← parse_float (dget d "Throughput (fps)")
    let per_stream ← parse_float (dget d "Throughput per Stream (fps/#)")
    let avg_power ← parse_float (dget d "Avg Power (W)")
    let efficiency ← parse_float (dget d "Efficiency (FPS/W)")
    Except.ok
      { timestamp := (dget d "Timestamp").getD ""
        system := (dget d "System").getD ""
        duration := (dget d "Duration (s)").getD ""
        cores := (dget d "Cores Pinned").getD ""
        config := (dget d "Pipeline Config").getD ""
        detect := (dget d "Detect Device").getD ""
        classify := (dget d "Classify Device").getD ""
        batch := (dget d "Batch").getD ""
        throughput := throughput
        per_stream := per_stream
        theoretical := (dget d "Theoretical Stream Density (@30fps±5%)").getD ""
        streams := (dget d "Measured Stream Density (#)").getD ""
        pipeline := pipelineOf d
        device_config := dget d "Device Configuration"
        avg_power := avg_power
        efficiency := efficiency }
  | _ => Except.error FileSkip.tooFewRows

/-- The `read_csvs` scan: every discovered file is parsed; a file that fails is
skipped with a warning and scanning continues, so the result is the list of
successfully parsed records in discovery order. -/
def read_csvs (corpus : List (List (List String))) : List Record :=
  corpus.filterMap (fun f => (read_file f).toOption)

/-- Grouping key of `aggregate` (lines 109-112): `if r.device_config:` is Python
truthiness, so the explicit label is used only when present AND non-empty. -/
def recKey (r : Record) : String × String × String :=
  match r.device_config with
  | some dc =>
    if dc = "" then (r.config, r.detect ++ "-" ++ r.classify, r.batch)
    else (r.config, dc, r.batch)
  | none => (r.config, r.detect ++ "-" ++ r.classify, r.batch)

/-- One step of the `defaultdict(list)` grouping: append the record to its
key's bucket, creating the bucket at the end on first sight of the key. -/
def addRec (acc : List ((String × String × String) × List Record)) (r : Record) :
    List ((String × String × String) × List Record) :=
  if acc.any (fun p => decide (p.1 = recKey r)) then
    acc.map (fun p => if p.1 = recKey r then (p.1, p.2 ++ [r]) else p)
  else acc ++ [(recKey r, [r])]

/-- The `groups` dict of `aggregate`, as an insertion-ordered association list. -/
def groupByKey (records : List Record) : List ((String × String × String) × List Record) :=
  records.foldl addRec []

/-- The theoretical-density contribution of one record (lines 128-133): excluded
when empty or case-insensitively `na`/`nan`; a remaining unparseable value is
skipped by the `except ValueError: continue`. -/
def theoVal (r : Record) : Option Rat :=
  if r.theoretical ≠ "" ∧ pyLower r.theoretical ≠ "na" ∧ pyLower r.theoretical ≠ "nan" then
    pyFloat? r.theoretical
  else none

/-- Python `round(q)`: nearest integer, ties to even. -/
def rhe (q : Rat) : Int :=
  let f := ⌊q⌋
  let r := q - f
  if r < 1 / 2 then f
  else if 1 / 2 < r then f + 1
  else if f % 2 = 0 then f
  else f + 1

/-- Python `round(q, 2)`: round to 2 decimal places, ties to even. -/
def round2 (q : Rat) : Rat := (rhe (q * 100) : Rat) / 100

/-- Arithmetic mean of a list of rationals. -/
def mean (l : List Rat) : Rat := l.sum / (l.length : Rat)

/-- One summary dict of `aggregate` (lines 138-149). -/
structure SummaryRow where
  config : String
  device_config : String
  detect : String
  classify : String
  batch : String
  runs : Nat
  avg_throughput : Option Rat
  theoretical_streams : Option Int
  avg_power : Option Rat
  efficiency : Option Rat
deriving DecidableEq, Repr

/-- Building one group's summary row (the loop body at lines 116-149). -/
def summarize (k : String × String × String) (recs : List Record) : SummaryRow :=
  let thr := recs.filterMap (fun r => r.throughput)
  let pwr := recs.filterMap (fun r => r.avg_power)
  let eff := recs.filterMap (fun r => r.efficiency)
  let theo_vals := recs.filterMap theoVal
  let first_rec := recs.headI
  { config := k.1
    device_config := k.2.1
    detect := first_rec.detect
    classify := first_rec.classify
    batch := k.2.2
    runs := recs.length
    avg_throughput := if thr.isEmpty then none else some (round2 (mean thr))
    theoretical_streams := if theo_vals.isEmpty then none else some (rhe (mean theo_vals))
    avg_power := if pwr.isEmpty then none else some (round2 (mean pwr))
    efficiency := if eff.isEmpty then none else some (round2 (mean eff)) }

/-- The rank table lookup `order_map.get(x["config"], 99)` with
the table mapping light to 0, medium to 1 and heavy to 2. -/
def rankOf (c : String) : Nat :=
  if c = "light" then 0
  else if c = "medium" then 1
  else if c = "heavy" then 2
  else 99

/-- The `int(x["batch"])` of the sort key; only meaningful when the batch
string parses (`aggregate` fails otherwise). -/
def batchInt (s : SummaryRow) : Int := (pyInt? s.batch).getD 0

/-- Strict lexicographic comparison of character lists by code point — the
order Python uses to compare strings inside a sort-key tuple. -/
def charListLt : List Char → List Char → Bool
  | [], [] => false
  | [], _ :: _ => true
  | _ :: _, [] => false
  | a :: as, b :: bs =>
    if a < b then true else if b < a then false else charListLt as bs

/-- Python tuple comparison of two 3-component sort keys
(rank, device string, batch integer), as a non-strict order. -/
def lex3 (n1 : Nat) (d1 : List Char) (i1 : Int) (n2 : Nat) (d2 : List Char) (i2 : Int) : Bool :=
  if n1 < n2 then true
  else if n2 < n1 then false
  else if charListLt d1 d2 then true
  else if charListLt d2 d1 then false
  else decide (i1 ≤ i2)

/-- Comparison of two summary rows by the sort key of lines 153-157. -/
def sortLeB (a b : SummaryRow) : Bool :=
  lex3 (rankOf a.config) a.device_config.data (batchInt a)
    (rankOf b.config) b.device_config.data (batchInt b)

/-- The summary sort order as a proposition. -/
def sortLe (a b : SummaryRow) : Prop := sortLeB a b = true

instance : DecidableRel sortLe := fun a b => instDecidableEqBool (sortLeB a b) true

/-- The unsorted `summary` list built by the grouping loop of `aggregate`. -/
def summaryRows (records : List Record) : List SummaryRow :=
  (groupByKey records).map (fun p => summarize p.1 p.2)

/-- The `aggregate` function: group, summarize, then sort by the key of lines
153-157.  Evaluating `int(x["batch"])` on a non-integer batch string raises
`ValueError`, modelled as `none`; otherwise Python's stable sort is modelled
by the (also stable) insertion sort over the same total key preorder. -/
def aggregate (records : List Record) : Option (List SummaryRow) :=
  if (summaryRows records).all (fun s => (pyInt? s.batch).isSome) then
    some (List.insertionSort sortLe (summaryRows records))
  else none

/-- The output document of `write_data_json` (the corpus-mtime provenance field
is filesystem state outside this model). -/
structure DataJson where
  summary : List SummaryRow
  raw : List Record
  generated : String
deriving DecidableEq, Repr

/-- The `write_data_json` emission: the document holds the summary rows, the
raw records in discovery order, and the generator tag. -/
def write_data_json (summary : List SummaryRow) (raw : List Record) : DataJson :=
  { summary := summary, raw := raw, generated := "Generated by generate_report.py" }

/-- Outcome of one run of `main`: a return code together with the document
written (if any), or an unhandled-exception crash. -/
inductive MainResult where
  | exit (code : Int) (written : Option DataJson)
  | crash
deriving DecidableEq, Repr

/-- The `main` function: no records means return 1 and write nothing;
otherwise aggregate (an unhandled exception there aborts the run with nothing
written) and on success write the document and return 0. -/
def main (corpus : List (List (List String))) : MainResult :=
  if read_csvs corpus = [] then MainResult.exit 1 none
  else
    match aggregate (read_csvs corpus) with
    | none => MainResult.crash
    | some summary =>
      MainResult.exit 0 (some (write_data_json summary (read_csvs corpus)))

/-- Restatement of the spec's pipeline-descriptor synthesis rule: dual-stage
first, then first-stage-only verbatim, then the generic column or empty. -/
def pipelineSpec (d : List (String × String)) : String :=
  match dget d "Pipeline1", dget d "Pipeline2" with
  | some p1, some p2 =>
    "Pipeline1: " ++ p1 ++ "... | Pipeline2: " ++ p2 ++ "..."
  | some p1, none => p1
  | none, _ =>
    match dget d "Pipeline" with
    | some p => p
    | none => ""

/-- Restatement of the spec's theoretical-density exclusion rule: a value that
is empty or case-insensitively na/nan is excluded up front, and a remaining
unparseable value is skipped (parse yields nothing) rather than failing. -/
def theoValSpec (r : Record) : Option Rat :=
  if r.theoretical = "" ∨ pyLower r.theoretical = "na" ∨ pyLower r.theoretical = "nan" then
    none
  else pyFloat? r.theoretical

/-- The ordering the spec prescribes for summary rows: tier rank first, then
the device descriptor in lexicographic string (code point) order, then the
batch size compared as an integer. -/
def specOrder (a b : SummaryRow) : Prop :=
  rankOf a.config < rankOf b.config ∨
    (rankOf a.config = rankOf b.config ∧
      (List.Lex (· < ·) a.device_config.data b.device_config.data ∨
        (a.device_config = b.device_config ∧ batchInt a ≤ batchInt b)))

/-- A concrete record for exercising the mean-field reduction. -/
def recW : Record :=
  { (default : Record) with config := "light", batch := "1", throughput := some 4 }

/-- A record carrying an explicit but empty device-configuration label. -/
def recEmptyLabel : Record :=
  { (default : Record) with detect := "cpu", classify := "gpu", device_config := some "" }

/-- A concrete record with a non-empty explicit device-configuration label. -/
def recLabel : Record :=
  { (default : Record) with config := "light", batch := "4", device_config := some "GPU" }

/-- A concrete record with a parseable theoretical-density value. -/
def recW4 : Record :=
  { (default : Record) with config := "light", batch := "1", theoretical := "2.5" }

/-- One single-run record of the given config tier, at a fixed device/batch. -/
def mkTier (c : String) : Record :=
  { (default : Record) with config := c, batch := "1", device_config := some "X" }

/-- Records with tiers heavy, light, unknown, medium at equal device/batch. -/
def tierRecords : List Record :=
  [mkTier "heavy", mkTier "light", mkTier "unknown", mkTier "medium"]

/-- The summary produced for `tierRecords`. -/
def tierOut : List SummaryRow := (aggregate tierRecords).getD []

/-- A corpus of three files whose second file has a non-numeric throughput. -/
def corpus3 : List (List (List String)) :=
  [[["Pipeline Config", "Batch", "Throughput (fps)"], ["light", "1", "10.5"]],
   [["Pipeline Config", "Batch", "Throughput (fps)"], ["light", "1", "oops"]],
   [["Pipeline Config", "Batch", "Throughput (fps)"], ["heavy", "1", "20.5"]]]

/-- A one-file corpus that parses cleanly with an integer batch. -/
def corpusOne : List (List (List String)) :=
  [[["Pipeline Config", "Batch"], ["light", "1"]]]

/-- The document `main` writes for `corpusOne`. -/
def docOne : DataJson :=
  write_data_json ((aggregate (read_csvs corpusOne)).getD []) (read_csvs corpusOne)

/-- A one-file corpus whose file lacks the Batch column entirely. -/
def corpusNoBatch : List (List (List String)) :=
  [[["Pipeline Config"], ["light"]]]

/-- Another corpus without a Batch column, for the batch-crash theorem. -/
def corpusNB : List (List (List String)) :=
  [[["Pipeline Config"], ["medium"]]]

/-- The record parsed from the batch-less file of `corpusNB`. -/
def recNB : Record := (read_file [["Pipeline Config"], ["medium"]]).toOption.getD default

/-- A two-row file whose data row has non-numeric content in a numeric column. -/
def fileBad : List (List String) := [["Throughput (fps)"], ["oops"]]

/-- Header row of a well-formed file. -/
def fileGood0 : List String := ["Pipeline Config", "Batch"]

/-- First data row of a well-formed file. -/
def fileGood1 : List String := ["light", "7"]

/-- The record parsed from the well-formed two-row file. -/
def recGood : Record := (read_file [fileGood0, fileGood1]).toOption.getD default

/-! Helper lemmas about the grouping fold and the aggregate guard. -/

lemma recKey_batch (r : Record) : (recKey r).2.2 = r.batch := by
  unfold recKey
  cases r.device_config with
  | none => rfl
  | some dc => by_cases h : dc = "" <;> simp [h]

lemma summarize_batch (k : String × String × String) (recs : List Record) :
    (summarize k recs).batch = k.2.2 := rfl

lemma foldl_addRec_key (l : List Record)
    (acc : List ((String × String × String) × List Record))
    (hacc : ∀ p ∈ acc, ∀ x ∈ p.2, recKey x = p.1) :
    ∀ p ∈ l.foldl addRec acc, ∀ x ∈ p.2, recKey x = p.1 := by
  induction l generalizing acc with
  | nil => simpa using hacc
  | cons r t ih =>
    rw [List.foldl_cons]
    apply ih
    intro p hp x hx
    unfold addRec at hp
    by_cases hany : acc.any (fun p => decide (p.1 = recKey r)) = true
    · rw [if_pos hany] at hp
      obtain ⟨q, hq, rfl⟩ := List.mem_map.mp hp
      by_cases hk : q.1 = recKey r
      · simp only [if_pos hk] at hx ⊢
        rcases List.mem_append.mp hx with h1 | h2
        · exact hacc q hq x h1
        · rw [List.mem_singleton.mp h2, hk]
      · simp only [if_neg hk] at hx ⊢
        exact hacc q hq x hx
    · rw [if_neg hany] at hp
      rcases List.mem_append.mp hp with h1 | h2
      · exact hacc p h1 x hx
      · rw [List.mem_singleton.mp h2] at hx ⊢
        rw [List.mem_singleton.mp hx]

lemma foldl_addRec_mem (S : Record → Prop) (l : List Record)
    (acc : List ((String × String × String) × List Record))
    (hacc : ∀ p ∈ acc, ∀ x ∈ p.2, S x) (hl : ∀ x ∈ l, S x) :
    ∀ p ∈ l.foldl addRec acc, ∀ x ∈ p.2, S x := by
  induction l generalizing acc with
  | nil => simpa using hacc
  | cons r t ih =>
    rw [List.foldl_cons]
    apply ih
    · intro p hp x hx
      unfold addRec at hp
      by_cases hany : acc.any (fun p => decide (p.1 = recKey r)) = true
      · rw [if_pos hany] at hp
        obtain ⟨q, hq, rfl⟩ := List.mem_map.mp hp
        by_cases hk : q.1 = recKey r
        · simp only [if_pos hk] at hx
          rcases List.mem_append.mp hx with h1 | h2
          · exact hacc q hq x h1
          · rw [List.mem_singleton.mp h2]
            exact hl r (List.mem_cons_self r t)
        · simp only [if_neg hk] at hx
          exact hacc q hq x hx
      · rw [if_neg hany] at hp
        rcases List.mem_append.mp hp with h1 | h2
        · exact hacc p h1 x hx
        · rw [List.mem_singleton.mp h2] at hx
          rw [List.mem_singleton.mp hx]
          exact hl r (List.mem_cons_self r t)
    · intro x hx
      exact hl x (List.mem_cons_of_mem r hx)

lemma foldl_addRec_ne_nil (l : List Record)
    (acc : List ((String × String × String) × List Record))
    (hacc : ∀ p ∈ acc, p.2 ≠ []) :
    ∀ p ∈ l.foldl addRec acc, p.2 ≠ [] := by
  induction l generalizing acc with
  | nil => simpa using hacc
  | cons r t ih =>
    rw [List.foldl_cons]
    apply ih
    intro p hp
    unfold addRec at hp
    by_cases hany : acc.any (fun p => decide (p.1 = recKey r)) = true
    · rw [if_pos hany] at hp
      obtain ⟨q, hq, rfl⟩ := List.mem_map.mp hp
      by_cases hk : q.1 = recKey r
      · simp [if_pos hk]
      · simp only [if_neg hk]
        exact hacc q hq
    · rw [if_neg hany] at hp
      rcases List.mem_append.mp hp with h1 | h2
      · exact hacc p h1
      · rw [List.mem_singleton.mp h2]
        simp

lemma addRec_keeps (acc : List ((String × String × String) × List Record))
    (r' r : Record) (p) (hp : p ∈ acc) (hr : r ∈ p.2) :
    ∃ q ∈ addRec acc r', r ∈ q.2 := by
  unfold addRec
  by_cases hany : acc.any (fun p => decide (p.1 = recKey r')) = true
  · rw [if_pos hany]
    refine ⟨if p.1 = recKey r' then (p.1, p.2 ++ [r']) else p,
      List.mem_map_of_mem _ hp, ?_⟩
    by_cases hk : p.1 = recKey r'
    · simp only [if_pos hk]
      exact List.mem_append_left _ hr
    · simp only [if_neg hk]
      exact hr
  · rw [if_neg hany]
    exact ⟨p, List.mem_append_left _ hp, hr⟩

lemma addRec_self (acc : List ((String × String × String) × List Record))
    (r : Record) : ∃ q ∈ addRec acc r, r ∈ q.2 := by
  unfold addRec
  by_cases hany : acc.any (fun p => decide (p.1 = recKey r)) = true
  · rw [if_pos hany]
    obtain ⟨p, hp, hkey⟩ := List.any_eq_true.mp hany
    have hk : p.1 = recKey r := of_decide_eq_true hkey
    refine ⟨(p.1, p.2 ++ [r]), ?_, List.mem_append_right _ (List.mem_singleton.mpr rfl)⟩
    have he : (if p.1 = recKey r then (p.1, p.2 ++ [r]) else p) = (p.1, p.2 ++ [r]) :=
      if_pos hk
    rw [← he]
    exact List.mem_map_of_mem _ hp
  · rw [if_neg hany]
    exact ⟨(recKey r, [r]), List.mem_append_right _ (List.mem_singleton.mpr rfl),
      List.mem_singleton.mpr rfl⟩

lemma foldl_addRec_exists (l : List Record)
    (acc : List ((String × String × String) × List Record)) (r : Record)
    (h : (∃ p ∈ acc, r ∈ p.2) ∨ r ∈ l) :
    ∃ p ∈ l.foldl addRec acc, r ∈ p.2 := by
  induction l generalizing acc with
  | nil =>
    rcases h with h | h
    · simpa using h
    · cases h
  | cons r' t ih =>
    rw [List.foldl_cons]
    apply ih
    rcases h with ⟨p, hp, hr⟩ | h
    · exact Or.inl (addRec_keeps acc r' r p hp hr)
    · rcases List.mem_cons.mp h with rfl | ht
      · exact Or.inl (addRec_self acc r)
      · exact Or.inr ht

lemma groupByKey_key (records : List Record) :
    ∀ p ∈ groupByKey records, ∀ x ∈ p.2, recKey x = p.1 :=
  foldl_addRec_key records [] (by simp)

lemma groupByKey_mem (records : List Record) :
    ∀ p ∈ groupByKey records, ∀ x ∈ p.2, x ∈ records :=
  foldl_addRec_mem (· ∈ records) records [] (by simp) (fun _ hx => hx)

lemma groupByKey_ne_nil (records : List Record) :
    ∀ p ∈ groupByKey records, p.2 ≠ [] :=
  foldl_addRec_ne_nil records [] (by simp)

lemma exists_group (records : List Record) (r : Record) (h : r ∈ records) :
    ∃ p ∈ groupByKey records, r ∈ p.2 :=
  foldl_addRec_exists records [] r (Or.inr h)

lemma aggregate_eq_none_iff (records : List Record) :
    aggregate records = none ↔ ∃ r ∈ records, pyInt? r.batch = none := by
  unfold aggregate
  by_cases hall : (summaryRows records).all (fun s => (pyInt? s.batch).isSome) = true
  · rw [if_pos hall]
    constructor
    · intro hc
      exact absurd hc (by simp)
    · rintro ⟨r, hr, hnone⟩
      exfalso
      obtain ⟨p, hp, hrp⟩ := exists_group records r hr
      have hs : summarize p.1 p.2 ∈ summaryRows records := List.mem_map_of_mem _ hp
      have hb : (summarize p.1 p.2).batch = r.batch := by
        rw [summarize_batch, ← groupByKey_key records p hp r hrp, recKey_batch]
      have := List.all_eq_true.mp hall _ hs
      rw [hb, hnone] at this
      simp at this
  · rw [if_neg hall]
    refine ⟨fun _ => ?_, fun _ => rfl⟩
    rw [List.all_eq_true] at hall
    push_neg at hall
    obtain ⟨s, hs, hbad⟩ := hall
    obtain ⟨p, hp, rfl⟩ := List.mem_map.mp hs
    obtain ⟨x, hx⟩ := List.exists_mem_of_ne_nil p.2 (groupByKey_ne_nil records p hp)
    refine ⟨x, groupByKey_mem records p hp x hx, ?_⟩
    have hb : (summarize p.1 p.2).batch = x.batch := by
      rw [summarize_batch, ← groupByKey_key records p hp x hx, recKey_batch]
    rw [hb] at hbad
    simpa using hbad

lemma aggregate_isSome_of (records : List Record)
    (h : ∀ r ∈ records, (pyInt? r.batch).isSome) :
    ∃ out, aggregate records = some out := by
  cases ha : aggregate records with
  | none =>
    obtain ⟨r, hr, hn⟩ := (aggregate_eq_none_iff records).mp ha
    have := h r hr
    rw [hn] at this
    simp at this
  | some out => exact ⟨out, rfl⟩

lemma summarize_avg_throughput (k : String × String × String) (recs : List Record) :
    (summarize k recs).avg_throughput =
      if (recs.filterMap (fun r => r.throughput)).isEmpty then none
      else some (round2 (mean (recs.filterMap (fun r => r.throughput)))) := rfl

lemma summarize_avg_power (k : String × String × String) (recs : List Record) :
    (summarize k recs).avg_power =
      if (recs.filterMap (fun r => r.avg_power)).isEmpty then none
      else some (round2 (mean (recs.filterMap (fun r => r.avg_power)))) := rfl

lemma summarize_efficiency (k : String × String × String) (recs : List Record) :
    (summarize k recs).efficiency =
      if (recs.filterMap (fun r => r.efficiency)).isEmpty then none
      else some (round2 (mean (recs.filterMap (fun r => r.efficiency)))) := rfl

lemma summarize_theoretical (k : String × String × String) (recs : List Record) :
    (summarize k recs).theoretical_streams =
      if (recs.filterMap theoVal).isEmpty then none
      else some (rhe (mean (recs.filterMap theoVal))) := rfl

lemma ite_isEmpty_none_iff {α : Type} (l : List Rat) (v : α) :
    ((if l.isEmpty then none else some v) = none ↔ l = []) ∧
      ∀ q, (if l.isEmpty then none else some v) = some q → l ≠ [] ∧ q = v := by
  by_cases h : l.isEmpty
  · rw [if_pos h]
    refine ⟨⟨fun _ => List.isEmpty_iff.mp h, fun _ => rfl⟩, fun q hq => ?_⟩
    cases hq
  · rw [if_neg h]
    have hne : l ≠ [] := fun he => h (List.isEmpty_iff.mpr he)
    constructor
    · constructor
      · intro hc
        cases hc
      · intro he
        exact absurd he hne
    · intro q hq
      have hv : v = q := by injection hq
      exact ⟨hne, hv.symm⟩

lemma optField_none_iff (recs : List Record) (f : Record → Option Rat) :
    ((if (recs.filterMap f).isEmpty then none
        else some (round2 (mean (recs.filterMap f)))) = none ↔
      ∀ r ∈ recs, f r = none) ∧
      ∀ q, (if (recs.filterMap f).isEmpty then none
          else some (round2 (mean (recs.filterMap f)))) = some q →
        recs.filterMap f ≠ [] ∧ q = round2 (mean (recs.filterMap f)) := by
  obtain ⟨h1, h2⟩ := ite_isEmpty_none_iff (recs.filterMap f) (round2 (mean (recs.filterMap f)))
  exact ⟨h1.trans List.filterMap_eq_nil_iff, h2⟩

lemma charListLt_irrefl : ∀ as : List Char, charListLt as as = false := by
  intro as
  induction as with
  | nil => rfl
  | cons a t ih =>
    unfold charListLt
    rw [if_neg (lt_irrefl a), if_neg (lt_irrefl a), ih]

lemma charListLt_asymm_eq : ∀ as bs : List Char,
    charListLt as bs = false → charListLt bs as = false → as = bs := by
  intro as
  induction as with
  | nil =>
    intro bs h1 _
    cases bs with
    | nil => rfl
    | cons b bt => exact Bool.noConfusion h1
  | cons a t ih =>
    intro bs h1 h2
    cases bs with
    | nil => exact Bool.noConfusion h2
    | cons b bt =>
      unfold charListLt at h1 h2
      by_cases hab : a < b
      · rw [if_pos hab] at h1
        exact Bool.noConfusion h1
      · rw [if_neg hab] at h1
        by_cases hba : b < a
        · rw [if_pos hba] at h2
          exact Bool.noConfusion h2
        · rw [if_neg hba] at h1
          rw [if_neg hba, if_neg hab] at h2
          have heq : a = b := le_antisymm (not_lt.mp hba) (not_lt.mp hab)
          rw [heq, ih bt h1 h2]

lemma charListLt_trans : ∀ as bs cs : List Char, charListLt as bs = true →
    charListLt bs cs = true → charListLt as cs = true := by
  intro as
  induction as with
  | nil =>
    intro bs cs h1 h2
    cases bs with
    | nil => exact Bool.noConfusion h1
    | cons b bt =>
      cases cs with
      | nil => exact Bool.noConfusion h2
      | cons c ct => rfl
  | cons a t ih =>
    intro bs cs h1 h2
    cases bs with
    | nil => exact Bool.noConfusion h1
    | cons b bt =>
      cases cs with
      | nil => exact Bool.noConfusion h2
      | cons c ct =>
        unfold charListLt at h1 h2 ⊢
        by_cases hab : a < b
        · by_cases hbc : b < c
          · rw [if_pos (lt_trans hab hbc)]
          · rw [if_neg hbc] at h2
            by_cases hcb : c < b
            · rw [if_pos hcb] at h2
              exact Bool.noConfusion h2
            · have heq : b = c := le_antisymm (not_lt.mp hcb) (not_lt.mp hbc)
              rw [if_pos (heq ▸ hab)]
        · rw [if_neg hab] at h1
          by_cases hba : b < a
          · rw [if_pos hba] at h1
            exact Bool.noConfusion h1
          · rw [if_neg hba] at h1
            have heq : a = b := le_antisymm (not_lt.mp hba) (not_lt.mp hab)
            subst heq
            by_cases hac : a < c
            · rw [if_pos hac]
            · rw [if_neg hac] at h2 ⊢
              by_cases hca : c < a
              · rw [if_pos hca] at h2
                exact Bool.noConfusion h2
              · rw [if_neg hca] at h2 ⊢
                exact ih bt ct h1 h2

lemma charListLt_iff_lex : ∀ as bs : List Char,
    charListLt as bs = true ↔ List.Lex (· < ·) as bs := by
  intro as
  induction as with
  | nil =>
    intro bs
    cases bs with
    | nil =>
      constructor
      · intro h
        exact Bool.noConfusion h
      · intro h
        cases h
    | cons b bt =>
      constructor
      · intro _
        exact List.Lex.nil
      · intro _
        rfl
  | cons a t ih =>
    intro bs
    cases bs with
    | nil =>
      constructor
      · intro h
        exact Bool.noConfusion h
      · intro h
        cases h
    | cons b bt =>
      unfold charListLt
      by_cases hab : a < b
      · rw [if_pos hab]
        constructor
        · intro _
          exact List.Lex.rel hab
        · intro _
          rfl
      · rw [if_neg hab]
        by_cases hba : b < a
        · rw [if_pos hba]
          constructor
          · intro h
            exact Bool.noConfusion h
          · intro h
            exfalso
            cases h with
            | cons h' => exact absurd hba (lt_irrefl a)
            | rel h' => exact hab h'
        · rw [if_neg hba]
          have heq : a = b := le_antisymm (not_lt.mp hba) (not_lt.mp hab)
          subst heq
          constructor
          · intro h
            exact List.Lex.cons ((ih bt).mp h)
          · intro h
            cases h with
            | cons h' => exact (ih bt).mpr h'
            | rel h' => exact absurd h' (lt_irrefl a)

lemma lex3_total (n1 : Nat) (d1 : List Char) (i1 : Int)
    (n2 : Nat) (d2 : List Char) (i2 : Int) :
    lex3 n1 d1 i1 n2 d2 i2 = true ∨ lex3 n2 d2 i2 n1 d1 i1 = true := by
  unfold lex3
  by_cases a12 : n1 < n2
  · left
    rw [if_pos a12]
  · by_cases a21 : n2 < n1
    · right
      rw [if_pos a21]
    · simp only [if_neg a12, if_neg a21]
      by_cases c12 : charListLt d1 d2 = true
      · left
        rw [if_pos c12]
      · by_cases c21 : charListLt d2 d1 = true
        · right
          rw [if_pos c21]
        · simp only [if_neg c12, if_neg c21]
          rcases Int.le_total i1 i2 with h | h
          · left
            exact decide_eq_true h
          · right
            exact decide_eq_true h

lemma lex3_trans {n1 n2 n3 : Nat} {d1 d2 d3 : List Char} {i1 i2 i3 : Int}
    (h12 : lex3 n1 d1 i1 n2 d2 i2 = true) (h23 : lex3 n2 d2 i2 n3 d3 i3 = true) :
    lex3 n1 d1 i1 n3 d3 i3 = true := by
  unfold lex3 at h12 h23 ⊢
  by_cases a12 : n1 < n2
  · by_cases a23 : n2 < n3
    · rw [if_pos (Nat.lt_trans a12 a23)]
    · rw [if_neg a23] at h23
      by_cases a32 : n3 < n2
      · rw [if_pos a32] at h23
        exact Bool.noConfusion h23
      · have he : n2 = n3 := by omega
        rw [if_pos (he ▸ a12)]
  · rw [if_neg a12] at h12
    by_cases a21 : n2 < n1
    · rw [if_pos a21] at h12
      exact Bool.noConfusion h12
    · rw [if_neg a21] at h12
      have he : n1 = n2 := by omega
      subst he
      by_cases a13 : n1 < n3
      · rw [if_pos a13]
      · rw [if_neg a13] at h23 ⊢
        by_cases a31 : n3 < n1
        · rw [if_pos a31] at h23
          exact Bool.noConfusion h23
        · rw [if_neg a31] at h23 ⊢
          by_cases c12 : charListLt d1 d2 = true
          · by_cases c23 : charListLt d2 d3 = true
            · rw [if_pos (charListLt_trans d1 d2 d3 c12 c23)]
            · rw [if_neg c23] at h23
              by_cases c32 : charListLt d3 d2 = true
              · rw [if_pos c32] at h23
                exact Bool.noConfusion h23
              · have hd : d2 = d3 :=
                  charListLt_asymm_eq d2 d3 (by simpa using c23) (by simpa using c32)
                rw [if_pos (hd ▸ c12)]
          · rw [if_neg c12] at h12
            by_cases c21 : charListLt d2 d1 = true
            · rw [if_pos c21] at h12
              exact Bool.noConfusion h12
            · rw [if_neg c21] at h12
              have hd : d1 = d2 :=
                charListLt_asymm_eq d1 d2 (by simpa using c12) (by simpa using c21)
              subst hd
              by_cases c13 : charListLt d1 d3 = true
              · rw [if_pos c13]
              · rw [if_neg c13] at h23 ⊢
                by_cases c31 : charListLt d3 d1 = true
                · rw [if_pos c31] at h23
                  exact Bool.noConfusion h23
                · rw [if_neg c31] at h23 ⊢
                  exact decide_eq_true
                    (le_trans (of_decide_eq_true h12) (of_decide_eq_true h23))

lemma lex3_iff (n1 : Nat) (d1 : List Char) (i1 : Int)
    (n2 : Nat) (d2 : List Char) (i2 : Int) :
    lex3 n1 d1 i1 n2 d2 i2 = true ↔
      (n1 < n2 ∨ (n1 = n2 ∧
        (List.Lex (· < ·) d1 d2 ∨ (d1 = d2 ∧ i1 ≤ i2)))) := by
  unfold lex3
  by_cases a12 : n1 < n2
  · rw [if_pos a12]
    simp [a12]
  · rw [if_neg a12]
    by_cases a21 : n2 < n1
    · rw [if_pos a21]
      constructor
      · intro h
        exact Bool.noConfusion h
      · rintro (h | ⟨he, _⟩)
        · exact absurd h a12
        · omega
    · rw [if_neg a21]
      have he : n1 = n2 := by omega
      by_cases c12 : charListLt d1 d2 = true
      · rw [if_pos c12]
        simp [he, (charListLt_iff_lex d1 d2).mp c12]
      · rw [if_neg c12]
        by_cases c21 : charListLt d2 d1 = true
        · rw [if_pos c21]
          constructor
          · intro h
            exact Bool.noConfusion h
          · rintro (h | ⟨_, hL | ⟨hd, _⟩⟩)
            · exact absurd h a12
            · exact absurd ((charListLt_iff_lex d1 d2).mpr hL) c12
            · subst hd
              rw [charListLt_irrefl d1] at c21
              exact Bool.noConfusion c21
        · rw [if_neg c21]
          have hd : d1 = d2 :=
            charListLt_asymm_eq d1 d2 (by simpa using c12) (by simpa using c21)
          constructor
          · intro h
            exact Or.inr ⟨he, Or.inr ⟨hd, of_decide_eq_true h⟩⟩
          · rintro (h | ⟨_, hL | ⟨_, hi⟩⟩)
            · exact absurd h a12
            · exact absurd ((charListLt_iff_lex d1 d2).mpr hL) c12
            · exact decide_eq_true hi

lemma sortLe_iff (a b : SummaryRow) : sortLe a b ↔ specOrder a b := by
  unfold sortLe sortLeB specOrder
  rw [lex3_iff]
  simp [String.ext_iff]

/-- C1: in every aggregation group, each of the three 2-decimal mean fields
(average throughput, average power, average efficiency) is absent exactly when
every record of the group lacks that field, and otherwise equals the mean of
the present values rounded to 2 decimal places — never a default zero and
never a mean over zero samples. -/
theorem C1_mean_fields (records : List Record)
    (p : (String × String × String) × List Record) (hp : p ∈ groupByKey records) :
    ((summarize p.1 p.2).avg_throughput = none ↔ ∀ r ∈ p.2, r.throughput = none) ∧
    (∀ q, (summarize p.1 p.2).avg_throughput = some q →
      p.2.filterMap (fun r => r.throughput) ≠ [] ∧
        q = round2 (mean (p.2.filterMap (fun r => r.throughput)))) ∧
    ((summarize p.1 p.2).avg_power = none ↔ ∀ r ∈ p.2, r.avg_power = none) ∧
    (∀ q, (summarize p.1 p.2).avg_power = some q →
      p.2.filterMap (fun r => r.avg_power) ≠ [] ∧
        q = round2 (mean (p.2.filterMap (fun r => r.avg_power)))) ∧
    ((summarize p.1 p.2).efficiency = none ↔ ∀ r ∈ p.2, r.efficiency = none) ∧
    (∀ q, (summarize p.1 p.2).efficiency = some q →
      p.2.filterMap (fun r => r.efficiency) ≠ [] ∧
        q = round2 (mean (p.2.filterMap (fun r => r.efficiency)))) := by
  rw [summarize_avg_throughput, summarize_avg_power, summarize_efficiency]
  obtain ⟨t1, t2⟩ := optField_none_iff p.2 (fun r => r.throughput)
  obtain ⟨p1, p2⟩ := optField_none_iff p.2 (fun r => r.avg_power)
  obtain ⟨e1, e2⟩ := optField_none_iff p.2 (fun r => r.efficiency)
  exact ⟨t1, t2, p1, p2, e1, e2⟩

theorem C1_mean_fields_witness :
    (summarize (recKey recW, [recW]).1 (recKey recW, [recW]).2).avg_throughput ≠ none := by
  intro hn
  have hr := (C1_mean_fields [recW] (recKey recW, [recW])
    (List.mem_cons_self _ _)).1.mp hn recW (List.mem_cons_self _ _)
  exact Option.noConfusion hr

/-- C2 counterexample: the device-configuration label is present (as the empty
string) on this record, yet the grouping key's device descriptor is the
detect-classify fallback, not the label — the code tests Python truthiness,
not presence. -/
theorem C2_counterexample :
    recEmptyLabel.device_config = some "" ∧
      (recKey recEmptyLabel).2.1 = "cpu-gpu" ∧ (recKey recEmptyLabel).2.1 ≠ "" := by
  refine ⟨rfl, rfl, ?_⟩
  decide

/-- C2 (amended): the grouping key is (config, device descriptor, batch) where
the device descriptor is the explicit device-configuration label when that
label is present and non-empty, and the string detect ++ "-" ++ classify when
the label is absent or empty. -/
theorem C2_grouping_key (r : Record) :
    (∀ dc, r.device_config = some dc → dc ≠ "" →
      recKey r = (r.config, dc, r.batch)) ∧
    (r.device_config = none ∨ r.device_config = some "" →
      recKey r = (r.config, r.detect ++ "-" ++ r.classify, r.batch)) := by
  constructor
  · intro dc hdc hne
    simp [recKey, hdc, hne]
  · intro h
    rcases h with h | h <;> simp [recKey, h]

theorem C2_grouping_key_witness : recKey recLabel = ("light", "GPU", "4") :=
  (C2_grouping_key recLabel).1 "GPU" rfl (by decide)

/-- C3: the parser's pipeline descriptor agrees with the spec's fixed
precedence rule (dual-stage, then first-stage-only, then generic-or-empty)
on every input row mapping. -/
theorem C3_pipeline (d : List (String × String)) : pipelineOf d = pipelineSpec d := by
  unfold pipelineOf pipelineSpec
  cases h1 : dget d "Pipeline1" <;> cases h2 : dget d "Pipeline2" <;>
    cases h3 : dget d "Pipeline" <;> simp [h1, h2, h3, Option.getD]

/-- C4: the per-record theoretical-density contribution follows the spec's
exclusion-then-skip rule, and in every group the summary field is the mean of
the parsed set rounded to the nearest integer, absent exactly when that set is
empty. -/
theorem C4_theoretical (records : List Record)
    (p : (String × String × String) × List Record) (hp : p ∈ groupByKey records) :
    (∀ r, theoVal r = theoValSpec r) ∧
    ((summarize p.1 p.2).theoretical_streams = none ↔ p.2.filterMap theoVal = []) ∧
    (∀ n, (summarize p.1 p.2).theoretical_streams = some n →
      p.2.filterMap theoVal ≠ [] ∧ n = rhe (mean (p.2.filterMap theoVal))) := by
  refine ⟨?_, ?_, ?_⟩
  · intro r
    unfold theoVal theoValSpec
    by_cases h1 : r.theoretical = "" <;>
      by_cases h2 : pyLower r.theoretical = "na" <;>
        by_cases h3 : pyLower r.theoretical = "nan" <;>
          simp [h1, h2, h3]
  · rw [summarize_theoretical]
    exact (ite_isEmpty_none_iff (p.2.filterMap theoVal) (rhe (mean (p.2.filterMap theoVal)))).1
  · rw [summarize_theoretical]
    exact (ite_isEmpty_none_iff (p.2.filterMap theoVal) (rhe (mean (p.2.filterMap theoVal)))).2

theorem C4_theoretical_witness :
    theoVal recW4 = theoValSpec recW4 ∧
      (summarize (recKey recW4, [recW4]).1 (recKey recW4, [recW4]).2).theoretical_streams ≠
        none := by
  have h := C4_theoretical [recW4] (recKey recW4, [recW4]) (List.mem_cons_self _ _)
  refine ⟨h.1 recW4, ?_⟩
  intro hn
  have he := h.2.1.mp hn
  rw [List.filterMap_eq_nil_iff] at he
  have hv := he recW4 (List.mem_cons_self _ _)
  exact absurd hv (by decide)

/-- C5: every summary sequence the aggregator emits is pairwise ordered by
tier rank (light 0, medium 1, heavy 2, anything else 99), then device
descriptor in lexicographic string order, then batch compared as integer;
concretely, tiers heavy, light, unknown, medium at equal device/batch come
out as light, medium, heavy, unknown. -/
theorem C5_order (records : List Record) (out : List SummaryRow)
    (h : aggregate records = some out) :
    List.Pairwise specOrder out ∧
    (aggregate tierRecords).map (fun l => l.map fun s => s.config) =
      some ["light", "medium", "heavy", "unknown"] ∧
    rankOf "light" = 0 ∧ rankOf "medium" = 1 ∧ rankOf "heavy" = 2 ∧
    ∀ c, c ≠ "light" → c ≠ "medium" → c ≠ "heavy" → rankOf c = 99 := by
  refine ⟨?_, by decide, rfl, rfl, rfl, ?_⟩
  · unfold aggregate at h
    by_cases hc : (summaryRows records).all (fun s => (pyInt? s.batch).isSome) = true
    · rw [if_pos hc] at h
      have h' : List.insertionSort sortLe (summaryRows records) = out := by injection h
      subst h'
      haveI : IsTotal SummaryRow sortLe :=
        ⟨fun a b => lex3_total (rankOf a.config) a.device_config.data (batchInt a)
          (rankOf b.config) b.device_config.data (batchInt b)⟩
      haveI : IsTrans SummaryRow sortLe :=
        ⟨fun _ _ _ hab hbc => lex3_trans hab hbc⟩
      have hs := List.sorted_insertionSort sortLe (summaryRows records)
      exact List.Pairwise.imp (fun hab => (sortLe_iff _ _).mp hab) hs
    · rw [if_neg hc] at h
      cases h
  · intro c h1 h2 h3
    unfold rankOf
    rw [if_neg h1, if_neg h2, if_neg h3]

theorem C5_order_witness :
    List.Pairwise specOrder tierOut ∧
      (aggregate tierRecords).map (fun l => l.map fun s => s.config) =
        some ["light", "medium", "heavy", "unknown"] :=
  ⟨(C5_order tierRecords tierOut (by rfl)).1,
    (C5_order tierRecords tierOut (by rfl)).2.1⟩

/-- C6: a numeric-optional column value parses to an absent field when missing,
empty or case-insensitively NA; any other non-numeric content is a file-level
parse failure; a 3-file corpus whose second file has a non-numeric throughput
yields exactly 2 records, the bad file alone failing, and the run still
succeeds and writes the document. -/
theorem C6_parse_float (v : String) :
    parse_float none = Except.ok none ∧
    (v = "" ∨ pyUpper v = "NA" → parse_float (some v) = Except.ok none) ∧
    (v ≠ "" → pyUpper v ≠ "NA" → pyFloat? v = none →
      parse_float (some v) = Except.error FileSkip.badNumeric) ∧
    (∀ q, v ≠ "" → pyUpper v ≠ "NA" → pyFloat? v = some q →
      parse_float (some v) = Except.ok (some q)) ∧
    (read_csvs corpus3).length = 2 ∧
    read_file [["Pipeline Config", "Batch", "Throughput (fps)"], ["light", "1", "oops"]] =
      Except.error FileSkip.badNumeric ∧
    main corpus3 = MainResult.exit 0 (some (write_data_json
      ((aggregate (read_csvs corpus3)).getD []) (read_csvs corpus3))) := by
  refine ⟨rfl, ?_, ?_, ?_, rfl, rfl, rfl⟩
  · intro h
    unfold parse_float
    dsimp only
    rw [if_pos h]
  · intro h1 h2 h3
    unfold parse_float
    dsimp only
    rw [if_neg (not_or.mpr ⟨h1, h2⟩), h3]
  · intro q h1 h2 h3
    unfold parse_float
    dsimp only
    rw [if_neg (not_or.mpr ⟨h1, h2⟩), h3]

theorem C6_parse_float_witness :
    parse_float (some "NA") = Except.ok none ∧
      parse_float (some "oops") = Except.error FileSkip.badNumeric ∧
      (read_csvs corpus3).length = 2 :=
  ⟨(C6_parse_float "NA").2.1 (Or.inr (by decide)),
    (C6_parse_float "oops").2.2.1 (by decide) (by decide) (by rfl),
    (C6_parse_float "NA").2.2.2.2.1⟩

/-- C7 counterexample: a file without a Batch column parses into one record
(so the corpus yields a record), yet the run crashes in the sort instead of
writing the document and signalling success. -/
theorem C7_counterexample :
    (read_csvs corpusNoBatch).length = 1 ∧ main corpusNoBatch = MainResult.crash :=
  ⟨rfl, rfl⟩

/-- C7 (amended): with zero parsed records the run returns 1 and writes
nothing; with at least one record AND every record's batch string
integer-convertible, the run writes the document and returns 0. -/
theorem C7_exit (corpus : List (List (List String))) :
    (read_csvs corpus = [] → main corpus = MainResult.exit 1 none) ∧
    (read_csvs corpus ≠ [] → (∀ r ∈ read_csvs corpus, (pyInt? r.batch).isSome) →
      main corpus = MainResult.exit 0 (some (write_data_json
        ((aggregate (read_csvs corpus)).getD []) (read_csvs corpus)))) := by
  constructor
  · intro h
    unfold main
    rw [if_pos h]
  · intro h1 h2
    obtain ⟨out, hout⟩ := aggregate_isSome_of (read_csvs corpus) h2
    unfold main
    rw [if_neg h1, hout]
    rfl

theorem C7_exit_witness :
    main ([] : List (List (List String))) = MainResult.exit 1 none ∧
      main corpusOne = MainResult.exit 0 (some (write_data_json
        ((aggregate (read_csvs corpusOne)).getD []) (read_csvs corpusOne))) :=
  ⟨(C7_exit []).1 rfl, (C7_exit corpusOne).2 (by decide) (by decide)⟩

/-- C8: whenever a run succeeds, re-aggregating the written document's raw
array by the same rules reproduces its summary array exactly — aggregation is
a pure deterministic function of the raw record sequence. -/
theorem C8_roundtrip (corpus : List (List (List String))) (doc : DataJson)
    (h : main corpus = MainResult.exit 0 (some doc)) :
    aggregate doc.raw = some doc.summary := by
  unfold main at h
  by_cases he : read_csvs corpus = []
  · rw [if_pos he] at h
    simp at h
  · rw [if_neg he] at h
    cases ha : aggregate (read_csvs corpus) with
    | none =>
      rw [ha] at h
      exact MainResult.noConfusion h
    | some s =>
      rw [ha] at h
      have h' : write_data_json s (read_csvs corpus) = doc := by
        have hh := h
        injection hh with h1 h2
        injection h2
      rw [← h']
      exact ha

theorem C8_roundtrip_witness : aggregate docOne.raw = some docOne.summary :=
  C8_roundtrip corpusOne docOne (by rfl)

/-- C9 counterexample: this file has two rows, yet produces zero records (its
numeric column fails coercion), so "at least two rows implies exactly one
record" is false as stated. -/
theorem C9_counterexample :
    fileBad.length = 2 ∧ read_csvs [fileBad] = [] :=
  ⟨rfl, rfl⟩

/-- C9 (amended): a file with at least two rows whose numeric coercions
succeed yields exactly one record, built from the header row zipped with the
first data row; every row after the second is ignored. -/
theorem C9_one_record (r0 r1 : List String) (rest : List (List String)) (rec : Record)
    (h : read_file [r0, r1] = Except.ok rec) :
    read_file (r0 :: r1 :: rest) = Except.ok rec ∧
      read_csvs [r0 :: r1 :: rest] = [rec] := by
  have h' : read_file (r0 :: r1 :: rest) = Except.ok rec := h
  refine ⟨h', ?_⟩
  simp [read_csvs, h', Except.toOption]

theorem C9_one_record_witness :
    read_file [fileGood0, fileGood1, ["extra"]] = Except.ok recGood ∧
      read_csvs [[fileGood0, fileGood1, ["extra"]]] = [recGood] :=
  C9_one_record fileGood0 fileGood1 [["extra"]] recGood (by rfl)

/-- C10: a record whose batch string is not integer-convertible (for example
parsed from a file without a Batch column, yielding the empty string) makes
`aggregate` raise in the sort key, and `main` aborts with nothing written —
the per-file skip never covers this sort-time failure. -/
theorem C10_batch_crash (corpus : List (List (List String))) (r : Record)
    (hr : r ∈ read_csvs corpus) (hbad : pyInt? r.batch = none) :
    aggregate (read_csvs corpus) = none ∧ main corpus = MainResult.crash := by
  have hagg : aggregate (read_csvs corpus) = none :=
    (aggregate_eq_none_iff (read_csvs corpus)).mpr ⟨r, hr, hbad⟩
  refine ⟨hagg, ?_⟩
  unfold main
  have hne : read_csvs corpus ≠ [] := by
    intro he
    rw [he] at hr
    cases hr
  rw [if_neg hne, hagg]

theorem C10_batch_crash_witness :
    aggregate (read_csvs corpusNB) = none ∧ main corpusNB = MainResult.crash :=
  C10_batch_crash corpusNB recNB (by decide) (by rfl)

end GenerateReport
